import Mathlib

/-!
Shallow embedding of `src/backend/consul_connection.go` (the hashi-ui Consul
websocket connection): the action envelope, the connection's watch set, the
outbound write pump, the inbound dispatch, the shared broadcast attach loop
and the two per-entity long-poll loops, together with theorems about these
operations.

Concurrency is embedded by making every point where a loop reads shared
mutable state an explicit oracle input: each loop iteration receives the
select outcome (destroy signal versus poll/change branch), the backend query
result, the value of the `watches.Has` membership test at that instant, and
whether the outbound channel `c.send` has already been closed at the send
attempt (a send on a closed Go channel panics).  Observable effects (backend
fetches, error log lines, sleeps, enqueues on `c.send`) are recorded as an
explicit trace, and a run of a loop consumes a finite list of iteration
oracles.
-/

namespace HashiUI

/-- Action type tags.  The Go `Action.Type` is a string; the tag constants
(`watchConsulService`, `fetchedConsulService`, ...) are defined in the
repository outside `src/` and referenced by `consul_connection.go`.  They
are modelled as an inductive of distinct opaque tags, with `unknown` for any
other wire string (the `default` case of `process`). -/
inductive ActionType where
  | fetchConsulRegions
  | fetchedConsulRegions
  | watchConsulServices
  | unwatchConsulServices
  | fetchedConsulServices
  | watchConsulService
  | unwatchConsulService
  | fetchedConsulService
  | watchConsulNodes
  | unwatchConsulNodes
  | fetchedConsulNodes
  | watchConsulNode
  | unwatchConsulNode
  | fetchedConsulNode
  | unknown (tag : String)
deriving DecidableEq, Repr

/-- Go `Action.Payload` is `interface{}` (any decoded JSON value).  `str` is
the only shape the single-entity watch/unwatch handlers accept via their
unchecked `action.Payload.(string)` assertion; `num`, `obj` and `absent`
model malformed payloads, and the remaining constructors model the opaque
data values the backend and region caches supply. -/
inductive PayloadV where
  | str (s : String)
  | num (n : Int)
  | obj
  | absent
  | serviceData (tag : Nat)
  | nodeData (tag : Nat)
  | regions
deriving DecidableEq, Repr

/-- The message envelope, Go struct `Action {Type, Payload, Index}`.  The Go
field `Type` is named `Ty` here because `Type` is a Lean keyword. -/
structure Action where
  Ty : ActionType
  Payload : PayloadV
  Index : Nat
deriving DecidableEq, Repr

/-- The connection's watch set `c.watches` (a `set.Set` of string keys).
`has`, `add` and `remove` model `Has`, `Add` and `Remove` of
`gopkg.in/fatih/set`: membership, idempotent insertion, and removal that is
a no-op when the key is absent. -/
abbrev WatchSet := List String

/-- Membership test, `c.watches.Has(k)`. -/
def WatchSet.has : WatchSet → String → Bool
  | [], _ => false
  | x :: xs, k => x == k || WatchSet.has xs k

/-- Removal, `c.watches.Remove(k)`; a no-op when `k` is absent. -/
def WatchSet.remove : WatchSet → String → WatchSet
  | [], _ => []
  | x :: xs, k => if x == k then WatchSet.remove xs k else x :: WatchSet.remove xs k

/-- Insertion, `c.watches.Add(k)`; idempotent. -/
def WatchSet.add (w : WatchSet) (k : String) : WatchSet :=
  if WatchSet.has w k then w else k :: w

/-- The fields of `api.QueryOptions` the per-entity loops use: `WaitIndex`
and `WaitTime` (`none` models the Go zero value being left in place, as in
the initial `&api.QueryOptions{WaitIndex: 1}`). -/
structure QueryOptions where
  WaitIndex : Nat
  WaitTime : Option Nat
deriving DecidableEq, Repr

/-- Result of one blocking backend query (`Health().Service` or
`Health().Node`): an error, or an opaque value tag together with the
returned `meta.LastIndex`. -/
inductive QueryResult where
  | err (msg : String)
  | ok (value : Nat) (lastIndex : Nat)
deriving DecidableEq, Repr

/-- Oracle for one `default` branch of a per-entity loop iteration: the
query result, the value the concurrent-safe `c.watches.Has(id)` test reads
after the query, and whether `c.send` is already closed at the send
attempt. -/
structure PollEnv where
  resp : QueryResult
  stillWatched : Bool
  sendClosed : Bool
deriving DecidableEq, Repr

/-- One select iteration of a per-entity loop: either the destroy channel
fired, or the `default` branch ran under the given oracle. -/
inductive LoopInput where
  | destroy
  | poll (env : PollEnv)
deriving DecidableEq, Repr

/-- Observable effects of the watch loops: a backend query issued with the
current `WaitIndex`, an error log line, a `time.Sleep` of the given number
of seconds, and a successful send of an `Action` on `c.send`. -/
inductive Effect where
  | fetch (id : String) (waitIndex : Nat)
  | logError
  | sleep (seconds : Nat)
  | enqueue (a : Action)
deriving DecidableEq, Repr

/-- Outcome of one per-entity loop iteration: continue with an updated
`QueryOptions`, return from the loop, or panic (send on closed channel). -/
inductive StepOut where
  | cont (q : QueryOptions) (effs : List Effect)
  | exit (effs : List Effect)
  | panicked (effs : List Effect)
deriving DecidableEq, Repr

/-- State of a per-entity loop after consuming a finite prefix of iteration
oracles: still looping with current `QueryOptions`, returned, or panicking. -/
inductive RunOut where
  | running (q : QueryOptions)
  | exited
  | panicked
deriving DecidableEq, Repr

/-- A finite run of a per-entity loop: its terminal status and the effect
trace it produced. -/
structure RunResult where
  out : RunOut
  effects : List Effect
deriving DecidableEq, Repr

/-- One iteration of the `for`/`select` loop of `watchConsulService`
(`consul_connection.go` lines 257-286): on the default branch, query
`Health().Service(serviceID, "", false, q)`; on error, log and sleep 10
seconds and continue; then re-check membership; then publish only when
`meta.LastIndex > q.WaitIndex`, replacing `q` by
`{WaitIndex: remote, WaitTime: 10s}` and sleeping 5 seconds.  When the
marker has not strictly advanced the iteration ends with no sleep. -/
def serviceStep (serviceID : String) (q : QueryOptions) : LoopInput → StepOut
  | .destroy => .exit []
  | .poll env =>
    match env.resp with
    | .err _ => .cont q [.fetch serviceID q.WaitIndex, .logError, .sleep 10]
    | .ok value lastIndex =>
      if env.stillWatched = false then .exit [.fetch serviceID q.WaitIndex]
      else if lastIndex > q.WaitIndex then
        if env.sendClosed then .panicked [.fetch serviceID q.WaitIndex]
        else .cont ⟨lastIndex, some 10⟩
          [.fetch serviceID q.WaitIndex,
           .enqueue ⟨.fetchedConsulService, .serviceData value, lastIndex⟩,
           .sleep 5]
      else .cont q [.fetch serviceID q.WaitIndex]

/-- One iteration of the `for`/`select` loop of `watchConsulNode`
(`consul_connection.go` lines 306-338): as `serviceStep`, except that the
skip condition is `meta.LastIndex == q.WaitIndex` (publish on any change,
not only on strict advance), and the skip path sleeps 5 seconds before
continuing. -/
def nodeStep (nodeID : String) (q : QueryOptions) : LoopInput → StepOut
  | .destroy => .exit []
  | .poll env =>
    match env.resp with
    | .err _ => .cont q [.fetch nodeID q.WaitIndex, .logError, .sleep 10]
    | .ok value lastIndex =>
      if env.stillWatched = false then .exit [.fetch nodeID q.WaitIndex]
      else if lastIndex = q.WaitIndex then .cont q [.fetch nodeID q.WaitIndex, .sleep 5]
      else if env.sendClosed then .panicked [.fetch nodeID q.WaitIndex]
      else .cont ⟨lastIndex, some 10⟩
        [.fetch nodeID q.WaitIndex,
         .enqueue ⟨.fetchedConsulNode, .nodeData value, lastIndex⟩,
         .sleep 5]

/-- Run the `watchConsulService` loop over a finite list of iteration
oracles, concatenating effect traces. -/
def serviceRun (serviceID : String) (q : QueryOptions) : List LoopInput → RunResult
  | [] => ⟨.running q, []⟩
  | inp :: rest =>
    match serviceStep serviceID q inp with
    | .cont q2 effs =>
      ⟨(serviceRun serviceID q2 rest).out, effs ++ (serviceRun serviceID q2 rest).effects⟩
    | .exit effs => ⟨.exited, effs⟩
    | .panicked effs => ⟨.panicked, effs⟩

/-- Run the `watchConsulNode` loop over a finite list of iteration
oracles. -/
def nodeRun (nodeID : String) (q : QueryOptions) : List LoopInput → RunResult
  | [] => ⟨.running q, []⟩
  | inp :: rest =>
    match nodeStep nodeID q inp with
    | .cont q2 effs =>
      ⟨(nodeRun nodeID q2 rest).out, effs ++ (nodeRun nodeID q2 rest).effects⟩
    | .exit effs => ⟨.exited, effs⟩
    | .panicked effs => ⟨.panicked, effs⟩

/-- The Go unchecked type assertion `action.Payload.(string)`: `none` means
the assertion fails and the executing goroutine panics. -/
def assertString : PayloadV → Option String
  | .str s => some s
  | _ => none

/-- Final status of a whole watch function invocation. -/
inductive Outcome where
  | noopDuplicate
  | panicPayload
  | stillRunning
  | normalReturn
  | panicPropagated
deriving DecidableEq, Repr

/-- Result of a whole watch function invocation: the connection's watch set
as left by this function's own entry/defer bookkeeping, the effect trace,
and the final status. -/
structure FuncResult where
  watches : WatchSet
  effects : List Effect
  outcome : Outcome
deriving DecidableEq, Repr

/-- `watchConsulService` (`consul_connection.go` lines 240-287): assert the
payload is a string (panic otherwise), return warning-only if the id is
already watched, otherwise add it, run the loop from
`&api.QueryOptions{WaitIndex: 1}`, and on any loop exit — return or panic
unwinding alike — run the deferred `c.watches.Remove(serviceID)`.  The
deferred function has no `recover()`, so a panic from a send on the closed
`c.send` channel propagates out of the goroutine. -/
def watchConsulService (action : Action) (watches0 : WatchSet)
    (inputs : List LoopInput) : FuncResult :=
  match assertString action.Payload with
  | none => ⟨watches0, [], .panicPayload⟩
  | some serviceID =>
    if WatchSet.has watches0 serviceID then ⟨watches0, [], .noopDuplicate⟩
    else
      match serviceRun serviceID ⟨1, none⟩ inputs with
      | ⟨.running _, effs⟩ => ⟨WatchSet.add watches0 serviceID, effs, .stillRunning⟩
      | ⟨.exited, effs⟩ =>
        ⟨WatchSet.remove (WatchSet.add watches0 serviceID) serviceID, effs, .normalReturn⟩
      | ⟨.panicked, effs⟩ =>
        ⟨WatchSet.remove (WatchSet.add watches0 serviceID) serviceID, effs, .panicPropagated⟩

/-- `watchConsulNode` (`consul_connection.go` lines 289-339): identical
shape to `watchConsulService` but running the node loop. -/
def watchConsulNode (action : Action) (watches0 : WatchSet)
    (inputs : List LoopInput) : FuncResult :=
  match assertString action.Payload with
  | none => ⟨watches0, [], .panicPayload⟩
  | some nodeID =>
    if WatchSet.has watches0 nodeID then ⟨watches0, [], .noopDuplicate⟩
    else
      match nodeRun nodeID ⟨1, none⟩ inputs with
      | ⟨.running _, effs⟩ => ⟨WatchSet.add watches0 nodeID, effs, .stillRunning⟩
      | ⟨.exited, effs⟩ =>
        ⟨WatchSet.remove (WatchSet.add watches0 nodeID) nodeID, effs, .normalReturn⟩
      | ⟨.panicked, effs⟩ =>
        ⟨WatchSet.remove (WatchSet.add watches0 nodeID) nodeID, effs, .panicPropagated⟩

/-- One select iteration of the `watchGenericBroadcast` loop
(`consul_connection.go` lines 207-232): destroy exits; on a change
notification the loop reads the stream value, exits if the key is no longer
watched, discards the value on event-type mismatch, and otherwise sends it
on `c.send` (panicking if that channel is closed). -/
inductive BcastInput where
  | destroy
  | change (channelAction : Action) (stillWatched : Bool) (sendClosed : Bool)
deriving DecidableEq, Repr

/-- Outcome of one broadcast-attach loop iteration. -/
inductive BStepOut where
  | cont (effs : List Effect)
  | exit (effs : List Effect)
  | panicked (effs : List Effect)
deriving DecidableEq, Repr

/-- Status of a broadcast-attach loop after a finite run. -/
inductive BRunOut where
  | running
  | exited
  | panicked
deriving DecidableEq, Repr

/-- A finite run of the broadcast-attach loop. -/
structure BRunResult where
  out : BRunOut
  effects : List Effect
deriving DecidableEq, Repr

/-- One iteration of the `watchGenericBroadcast` select loop. -/
def bcastStep (watchKey : String) (actionEvent : ActionType) : BcastInput → BStepOut
  | .destroy => .exit []
  | .change channelAction stillWatched sendClosed =>
    if stillWatched = false then .exit []
    else if channelAction.Ty ≠ actionEvent then .cont []
    else if sendClosed then .panicked []
    else .cont [.enqueue channelAction]

/-- Run the `watchGenericBroadcast` loop over a finite list of iteration
oracles. -/
def bcastRun (watchKey : String) (actionEvent : ActionType) : List BcastInput → BRunResult
  | [] => ⟨.running, []⟩
  | inp :: rest =>
    match bcastStep watchKey actionEvent inp with
    | .cont effs =>
      ⟨(bcastRun watchKey actionEvent rest).out,
       effs ++ (bcastRun watchKey actionEvent rest).effects⟩
    | .exit effs => ⟨.exited, effs⟩
    | .panicked effs => ⟨.panicked, effs⟩

/-- `watchGenericBroadcast` (`consul_connection.go` lines 183-233): return
warning-only if the key is already watched; otherwise install a deferred
function that removes the key and `recover()`s (so a send-on-closed-channel
panic is swallowed and the function returns normally), add the key, send
one initial snapshot `Action{actionEvent, initialPayload, Index: 0}` on
`c.send` (this very send can hit the closed channel, also recovered), then
observe the multicast property and loop.  `sendClosedAtStart` is the oracle
for the initial send. -/
def watchGenericBroadcast (watchKey : String) (actionEvent : ActionType)
    (initialPayload : PayloadV) (watches0 : WatchSet)
    (sendClosedAtStart : Bool) (inputs : List BcastInput) : FuncResult :=
  if WatchSet.has watches0 watchKey then ⟨watches0, [], .noopDuplicate⟩
  else if sendClosedAtStart then
    ⟨WatchSet.remove (WatchSet.add watches0 watchKey) watchKey, [], .normalReturn⟩
  else
    match bcastRun watchKey actionEvent inputs with
    | ⟨.running, effs⟩ =>
      ⟨WatchSet.add watches0 watchKey,
       .enqueue ⟨actionEvent, initialPayload, 0⟩ :: effs, .stillRunning⟩
    | ⟨.exited, effs⟩ =>
      ⟨WatchSet.remove (WatchSet.add watches0 watchKey) watchKey,
       .enqueue ⟨actionEvent, initialPayload, 0⟩ :: effs, .normalReturn⟩
    | ⟨.panicked, effs⟩ =>
      ⟨WatchSet.remove (WatchSet.add watches0 watchKey) watchKey,
       .enqueue ⟨actionEvent, initialPayload, 0⟩ :: effs, .normalReturn⟩

/-- `unwatchGenericBroadcast` (`consul_connection.go` lines 235-238). -/
def unwatchGenericBroadcast (watchKey : String) (watches : WatchSet) : WatchSet :=
  WatchSet.remove watches watchKey

/-- What `process` (`consul_connection.go` lines 114-163) does with one
inbound action.  The `go c.watch...` spawn cases carry the raw action to
the spawned goroutine unexamined; the unwatch-single cases run the
unchecked `action.Payload.(string)` assertion inline, so a non-string
payload makes `process` itself panic (`taskPanic`). -/
inductive ProcessOut where
  | spawnedFetchRegions
  | spawnedGenericWatch (watchKey : String) (actionEvent : ActionType)
  | unwatchedGeneric (watches : WatchSet)
  | spawnedServiceWatch (a : Action)
  | spawnedNodeWatch (a : Action)
  | removedWatch (watches : WatchSet)
  | unknownLogged
  | taskPanic
deriving DecidableEq, Repr

/-- The `switch action.Type` dispatch of `process`. -/
def process (a : Action) (watches : WatchSet) : ProcessOut :=
  match a.Ty with
  | .fetchConsulRegions => .spawnedFetchRegions
  | .watchConsulServices => .spawnedGenericWatch "services" .fetchedConsulServices
  | .unwatchConsulServices => .unwatchedGeneric (unwatchGenericBroadcast "services" watches)
  | .watchConsulService => .spawnedServiceWatch a
  | .unwatchConsulService =>
    match assertString a.Payload with
    | some s => .removedWatch (WatchSet.remove watches s)
    | none => .taskPanic
  | .watchConsulNodes => .spawnedGenericWatch "nodes" .fetchedConsulNodes
  | .unwatchConsulNodes => .unwatchedGeneric (unwatchGenericBroadcast "nodes" watches)
  | .watchConsulNode => .spawnedNodeWatch a
  | .unwatchConsulNode =>
    match assertString a.Payload with
    | some s => .removedWatch (WatchSet.remove watches s)
    | none => .taskPanic
  | _ => .unknownLogged

/-- Input to one iteration of `writePump` (`consul_connection.go` lines
72-91): either the receive from `c.send` yields an action (with an oracle
for whether `WriteJSON` fails), or the channel is closed (with an oracle
for whether writing the close frame fails). -/
inductive PumpIn where
  | item (a : Action) (writeFails : Bool)
  | closed (closeWriteFails : Bool)
deriving DecidableEq, Repr

/-- Observable effects of `writePump`: an attempted `WriteJSON` of an
action, the error log after a failed write, the attempted close frame, the
error log after a failed close write, and the deferred `c.socket.Close()`. -/
inductive PumpEffect where
  | write (a : Action)
  | logWriteError
  | closeFrame
  | logCloseError
  | socketClose
deriving DecidableEq, Repr

/-- `writePump`: receive from `c.send` in a loop; on channel closure write
a close frame (logging a failure) and return, running the deferred socket
close; on an action, attempt `WriteJSON`, log a failure, and continue with
the next item either way. -/
def writePump : List PumpIn → List PumpEffect
  | [] => []
  | .closed cf :: _ =>
    .closeFrame :: ((if cf then [.logCloseError] else []) ++ [.socketClose])
  | .item a wf :: rest =>
    .write a :: ((if wf then [.logWriteError] else []) ++ writePump rest)

/-- The version markers of the actions enqueued on `c.send`, in order. -/
def enqueuedIndices : List Effect → List Nat
  | [] => []
  | .enqueue a :: rest => a.Index :: enqueuedIndices rest
  | .fetch _ _ :: rest => enqueuedIndices rest
  | .logError :: rest => enqueuedIndices rest
  | .sleep _ :: rest => enqueuedIndices rest

/-- The actions enqueued on `c.send`, in order. -/
def enqueuedActions : List Effect → List Action
  | [] => []
  | .enqueue a :: rest => a :: enqueuedActions rest
  | .fetch _ _ :: rest => enqueuedActions rest
  | .logError :: rest => enqueuedActions rest
  | .sleep _ :: rest => enqueuedActions rest

/-- The actions attempted on the transport by `writePump`, in order. -/
def writesOf : List PumpEffect → List Action
  | [] => []
  | .write a :: rest => a :: writesOf rest
  | .logWriteError :: rest => writesOf rest
  | .closeFrame :: rest => writesOf rest
  | .logCloseError :: rest => writesOf rest
  | .socketClose :: rest => writesOf rest

/-- The `meta.LastIndex` values of the successful backend responses in an
oracle list, in order. -/
def resps : List LoopInput → List Nat
  | [] => []
  | .destroy :: rest => resps rest
  | .poll env :: rest =>
    match env.resp with
    | .ok _ r => r :: resps rest
    | .err _ => resps rest

/-- An iteration oracle whose default branch returned a backend error. -/
def isErrPoll : LoopInput → Bool
  | .poll ⟨.err _, _, _⟩ => true
  | _ => false

/-- An iteration oracle for a successful poll whose returned marker is at
most 1, with the entity still watched. -/
def lowIdxPoll : LoopInput → Bool
  | .poll ⟨.ok _ r, true, _⟩ => r ≤ 1
  | _ => false

/-! Helper lemmas about the watch set and the loop runs. -/

/-- Removing a key from the watch set leaves a set without that key. -/
theorem has_remove_self (w : WatchSet) (k : String) :
    WatchSet.has (WatchSet.remove w k) k = false := by
  induction w with
  | nil => rfl
  | cons x xs ih =>
    by_cases h : x = k
    · simpa [WatchSet.remove, h] using ih
    · simp [WatchSet.remove, WatchSet.has, h, ih, beq_iff_eq]

/-- Removing an absent key is a no-op, as for `set.Set.Remove`. -/
theorem remove_of_not_has (w : WatchSet) (k : String) (h : WatchSet.has w k = false) :
    WatchSet.remove w k = w := by
  induction w with
  | nil => rfl
  | cons x xs ih =>
    simp [WatchSet.has, beq_iff_eq, Bool.or_eq_false_iff] at h
    simp [WatchSet.remove, beq_iff_eq, h.1, ih h.2]

/-- Enqueued markers of a concatenated trace. -/
theorem enqueuedIndices_append (l1 l2 : List Effect) :
    enqueuedIndices (l1 ++ l2) = enqueuedIndices l1 ++ enqueuedIndices l2 := by
  induction l1 with
  | nil => rfl
  | cons e rest ih => cases e <;> simp [enqueuedIndices, ih]

/-- The service loop publishes only on strict advance of the marker and then
makes the published marker its new `WaitIndex`, so the markers it enqueues
from any state form a strictly increasing chain above that state's
`WaitIndex`. -/
theorem serviceRun_chain (sid : String) (inps : List LoopInput) (q : QueryOptions) :
    List.Chain' (· < ·) (q.WaitIndex :: enqueuedIndices (serviceRun sid q inps).effects) := by
  induction inps generalizing q with
  | nil => simp [serviceRun, enqueuedIndices]
  | cons i rest ih =>
    rcases i with _ | ⟨⟨resp, sw, sc⟩⟩
    · simp [serviceRun, serviceStep, enqueuedIndices]
    · cases resp with
      | err m =>
        simpa [serviceRun, serviceStep, enqueuedIndices, enqueuedIndices_append] using ih q
      | ok v r =>
        by_cases hsw : sw = false
        · simp [serviceRun, serviceStep, hsw, enqueuedIndices]
        · by_cases hr : q.WaitIndex < r
          · by_cases hsc : sc = true
            · simp [serviceRun, serviceStep, hsw, hr, hsc, enqueuedIndices]
            · simpa [serviceRun, serviceStep, hsw, hr, hsc, enqueuedIndices,
                enqueuedIndices_append] using ih ⟨r, some 10⟩
          · simpa [serviceRun, serviceStep, hsw, hr, enqueuedIndices,
              enqueuedIndices_append] using ih q

/-- The node loop skips exactly when the returned marker equals its
`WaitIndex`, so consecutive markers it enqueues are always distinct. -/
theorem nodeRun_ne_chain (nid : String) (inps : List LoopInput) (q : QueryOptions) :
    List.Chain' (· ≠ ·) (q.WaitIndex :: enqueuedIndices (nodeRun nid q inps).effects) := by
  induction inps generalizing q with
  | nil => simp [nodeRun, enqueuedIndices]
  | cons i rest ih =>
    rcases i with _ | ⟨⟨resp, sw, sc⟩⟩
    · simp [nodeRun, nodeStep, enqueuedIndices]
    · cases resp with
      | err m => simpa [nodeRun, nodeStep, enqueuedIndices, enqueuedIndices_append] using ih q
      | ok v r =>
        by_cases hsw : sw = false
        · simp [nodeRun, nodeStep, hsw, enqueuedIndices]
        · by_cases hreq : r = q.WaitIndex
          · simpa [nodeRun, nodeStep, hsw, hreq, enqueuedIndices, enqueuedIndices_append]
              using ih q
          · by_cases hsc : sc = true
            · simp [nodeRun, nodeStep, hsw, hreq, hsc, enqueuedIndices]
            · have h2 := ih ⟨r, some 10⟩
              simp [nodeRun, nodeStep, hsw, hreq, hsc, enqueuedIndices,
                enqueuedIndices_append]
              exact ⟨fun hq => hreq hq.symm, h2⟩

/-- When the backend's returned markers are non-decreasing and all at least
the node loop's current `WaitIndex`, the markers the node loop enqueues form
a strictly increasing chain above that `WaitIndex`. -/
theorem nodeRun_chain_ge (nid : String) (inps : List LoopInput) :
    ∀ q : QueryOptions, List.Pairwise (· ≤ ·) (resps inps) →
      (∀ r ∈ resps inps, q.WaitIndex ≤ r) →
      List.Chain' (· < ·) (q.WaitIndex :: enqueuedIndices (nodeRun nid q inps).effects) := by
  induction inps with
  | nil => intro q _ _; simp [nodeRun, enqueuedIndices]
  | cons i rest ih =>
    intro q hmono hge
    rcases i with _ | ⟨⟨resp, sw, sc⟩⟩
    · simp [nodeRun, nodeStep, enqueuedIndices]
    · cases resp with
      | err m =>
        simp only [resps] at hmono hge
        simpa [nodeRun, nodeStep, enqueuedIndices, enqueuedIndices_append]
          using ih q hmono hge
      | ok v r =>
        simp only [resps, List.pairwise_cons, List.forall_mem_cons] at hmono hge
        by_cases hsw : sw = false
        · simp [nodeRun, nodeStep, hsw, enqueuedIndices]
        · by_cases hreq : r = q.WaitIndex
          · simpa [nodeRun, nodeStep, hsw, hreq, enqueuedIndices, enqueuedIndices_append]
              using ih q hmono.2 hge.2
          · by_cases hsc : sc = true
            · simp [nodeRun, nodeStep, hsw, hreq, hsc, enqueuedIndices]
            · have hlt : q.WaitIndex < r := lt_of_le_of_ne hge.1 (fun h => hreq h.symm)
              have h2 := ih ⟨r, some 10⟩ hmono.2 hmono.1
              simp [nodeRun, nodeStep, hsw, hreq, hsc, enqueuedIndices,
                enqueuedIndices_append]
              exact ⟨hlt, h2⟩

/-- When the backend's returned markers are non-decreasing over a node-loop
run, the enqueued markers are strictly increasing from any starting state. -/
theorem nodeRun_chain (nid : String) (inps : List LoopInput) :
    ∀ q : QueryOptions, List.Pairwise (· ≤ ·) (resps inps) →
      List.Chain' (· < ·) (enqueuedIndices (nodeRun nid q inps).effects) := by
  induction inps with
  | nil => intro q _; simp [nodeRun, enqueuedIndices]
  | cons i rest ih =>
    intro q hmono
    rcases i with _ | ⟨⟨resp, sw, sc⟩⟩
    · simp [nodeRun, nodeStep, enqueuedIndices]
    · cases resp with
      | err m =>
        simp only [resps] at hmono
        simpa [nodeRun, nodeStep, enqueuedIndices, enqueuedIndices_append] using ih q hmono
      | ok v r =>
        simp only [resps, List.pairwise_cons] at hmono
        by_cases hsw : sw = false
        · simp [nodeRun, nodeStep, hsw, enqueuedIndices]
        · by_cases hreq : r = q.WaitIndex
          · simpa [nodeRun, nodeStep, hsw, hreq, enqueuedIndices, enqueuedIndices_append]
              using ih q hmono.2
          · by_cases hsc : sc = true
            · simp [nodeRun, nodeStep, hsw, hreq, hsc, enqueuedIndices]
            · have h2 := nodeRun_chain_ge nid rest ⟨r, some 10⟩ hmono.2 hmono.1
              simpa [nodeRun, nodeStep, hsw, hreq, hsc, enqueuedIndices,
                enqueuedIndices_append] using h2

/-- A run of the service loop whose every iteration hits a backend error
never exits, never publishes, and leaves `QueryOptions` untouched. -/
theorem serviceRun_allErr (sid : String) (inps : List LoopInput) :
    ∀ q : QueryOptions, inps.all isErrPoll = true →
      (serviceRun sid q inps).out = .running q
      ∧ enqueuedIndices (serviceRun sid q inps).effects = [] := by
  induction inps with
  | nil => intro q _; simp [serviceRun, enqueuedIndices]
  | cons i rest ih =>
    intro q h
    simp only [List.all_cons, Bool.and_eq_true] at h
    rcases i with _ | ⟨⟨resp, sw, sc⟩⟩
    · simp [isErrPoll] at h
    · cases resp with
      | ok v r => simp [isErrPoll] at h
      | err m =>
        have h2 := ih q h.2
        constructor
        · simpa [serviceRun, serviceStep] using h2.1
        · simpa [serviceRun, serviceStep, enqueuedIndices, enqueuedIndices_append] using h2.2

/-- A run of the node loop whose every iteration hits a backend error never
exits, never publishes, and leaves `QueryOptions` untouched. -/
theorem nodeRun_allErr (nid : String) (inps : List LoopInput) :
    ∀ q : QueryOptions, inps.all isErrPoll = true →
      (nodeRun nid q inps).out = .running q
      ∧ enqueuedIndices (nodeRun nid q inps).effects = [] := by
  induction inps with
  | nil => intro q _; simp [nodeRun, enqueuedIndices]
  | cons i rest ih =>
    intro q h
    simp only [List.all_cons, Bool.and_eq_true] at h
    rcases i with _ | ⟨⟨resp, sw, sc⟩⟩
    · simp [isErrPoll] at h
    · cases resp with
      | ok v r => simp [isErrPoll] at h
      | err m =>
        have h2 := ih q h.2
        constructor
        · simpa [nodeRun, nodeStep] using h2.1
        · simpa [nodeRun, nodeStep, enqueuedIndices, enqueuedIndices_append] using h2.2

/-- From the initial `WaitIndex` 1, successful polls whose markers stay at
or below 1 leave the service loop running with `WaitIndex` still 1 and
produce only fetch effects. -/
theorem serviceRun_lowIdx (sid : String) (inps : List LoopInput) :
    inps.all lowIdxPoll = true →
      serviceRun sid ⟨1, none⟩ inps
        = ⟨.running ⟨1, none⟩, inps.map fun _ => Effect.fetch sid 1⟩ := by
  induction inps with
  | nil => intro _; simp [serviceRun]
  | cons i rest ih =>
    intro h
    simp only [List.all_cons, Bool.and_eq_true] at h
    rcases i with _ | ⟨⟨resp, sw, sc⟩⟩
    · simp [lowIdxPoll] at h
    · cases resp with
      | err m => simp [lowIdxPoll] at h
      | ok v r =>
        cases sw with
        | false => simp [lowIdxPoll] at h
        | true =>
          have h1 : r ≤ 1 := by simpa [lowIdxPoll] using h.1
          have hr : ¬ ((1 : Nat) < r) := by omega
          simp [serviceRun, serviceStep, ih h.2, hr]

/-- The effects of a `watchConsulService` invocation on a fresh id are
exactly the effects of its loop run from `WaitIndex` 1. -/
theorem watchConsulService_effects_eq (a : Action) (sid : String) (w : WatchSet)
    (inps : List LoopInput) (hp : a.Payload = .str sid) (hw : WatchSet.has w sid = false) :
    (watchConsulService a w inps).effects = (serviceRun sid ⟨1, none⟩ inps).effects := by
  rcases h : serviceRun sid ⟨1, none⟩ inps with ⟨o, effs⟩
  cases o <;> simp [watchConsulService, assertString, hp, hw, h]

/-- The effects of a `watchConsulNode` invocation on a fresh id are exactly
the effects of its loop run from `WaitIndex` 1. -/
theorem watchConsulNode_effects_eq (a : Action) (nid : String) (w : WatchSet)
    (inps : List LoopInput) (hp : a.Payload = .str nid) (hw : WatchSet.has w nid = false) :
    (watchConsulNode a w inps).effects = (nodeRun nid ⟨1, none⟩ inps).effects := by
  rcases h : nodeRun nid ⟨1, none⟩ inps with ⟨o, effs⟩
  cases o <;> simp [watchConsulNode, assertString, hp, hw, h]

/-- A panicking send inside the service loop propagates out of
`watchConsulService`: its deferred function has no `recover()`. -/
theorem watchConsulService_panic_outcome (a : Action) (sid : String) (w : WatchSet)
    (inps : List LoopInput) (hp : a.Payload = .str sid) (hw : WatchSet.has w sid = false)
    (hr : (serviceRun sid ⟨1, none⟩ inps).out = .panicked) :
    (watchConsulService a w inps).outcome = .panicPropagated := by
  rcases h : serviceRun sid ⟨1, none⟩ inps with ⟨o, effs⟩
  rw [h] at hr
  cases o <;> simp_all [watchConsulService, assertString, hp, hw, h]

/-- A panicking send inside the node loop propagates out of
`watchConsulNode`: its deferred function has no `recover()`. -/
theorem watchConsulNode_panic_outcome (a : Action) (nid : String) (w : WatchSet)
    (inps : List LoopInput) (hp : a.Payload = .str nid) (hw : WatchSet.has w nid = false)
    (hr : (nodeRun nid ⟨1, none⟩ inps).out = .panicked) :
    (watchConsulNode a w inps).outcome = .panicPropagated := by
  rcases h : nodeRun nid ⟨1, none⟩ inps with ⟨o, effs⟩
  rw [h] at hr
  cases o <;> simp_all [watchConsulNode, assertString, hp, hw, h]

/-- No invocation of `watchGenericBroadcast` ever lets a panic escape: its
deferred function calls `recover()`. -/
theorem watchGenericBroadcast_no_propagation (k : String) (ev : ActionType) (p : PayloadV)
    (w : WatchSet) (sc : Bool) (inps : List BcastInput) :
    (watchGenericBroadcast k ev p w sc inps).outcome ≠ .panicPropagated := by
  by_cases h1 : WatchSet.has w k
  · simp [watchGenericBroadcast, h1]
  · by_cases h2 : sc = true
    · simp [watchGenericBroadcast, h1, h2]
    · rcases h : bcastRun k ev inps with ⟨o, effs⟩
      cases o <;> simp [watchGenericBroadcast, h1, h2, h]

/-- A panicking send inside the broadcast-attach loop is recovered and the
function returns normally. -/
theorem watchGenericBroadcast_recovered (k : String) (ev : ActionType) (p : PayloadV)
    (w : WatchSet) (inps : List BcastInput) (h1 : WatchSet.has w k = false)
    (hp : (bcastRun k ev inps).out = .panicked) :
    (watchGenericBroadcast k ev p w false inps).outcome = .normalReturn := by
  rcases h : bcastRun k ev inps with ⟨o, effs⟩
  rw [h] at hp
  cases o <;> simp_all [watchGenericBroadcast, h1, h]

/-- When `watchGenericBroadcast` returns, its deferred removal has taken
the key back out of the watch set. -/
theorem watchGenericBroadcast_exit_watches (k : String) (ev : ActionType) (p : PayloadV)
    (w : WatchSet) (sc : Bool) (inps : List BcastInput) (h1 : WatchSet.has w k = false)
    (hout : (watchGenericBroadcast k ev p w sc inps).outcome = .normalReturn) :
    WatchSet.has (watchGenericBroadcast k ev p w sc inps).watches k = false := by
  by_cases h2 : sc = true
  · simp [watchGenericBroadcast, h1, h2, has_remove_self]
  · rcases h : bcastRun k ev inps with ⟨o, effs⟩
    cases o <;> simp_all [watchGenericBroadcast, h1, h2, h, has_remove_self]

/-- When `watchConsulService` exits its loop — returning or panicking — the
deferred removal has taken the service id back out of the watch set. -/
theorem watchConsulService_exit_watches (a : Action) (sid : String) (w : WatchSet)
    (inps : List LoopInput) (hp : a.Payload = .str sid) (hw : WatchSet.has w sid = false)
    (hout : (watchConsulService a w inps).outcome = .normalReturn
      ∨ (watchConsulService a w inps).outcome = .panicPropagated) :
    WatchSet.has (watchConsulService a w inps).watches sid = false := by
  rcases h : serviceRun sid ⟨1, none⟩ inps with ⟨o, effs⟩
  cases o <;> simp_all [watchConsulService, assertString, hp, hw, h, has_remove_self]

/-- When `watchConsulNode` exits its loop — returning or panicking — the
deferred removal has taken the node id back out of the watch set. -/
theorem watchConsulNode_exit_watches (a : Action) (nid : String) (w : WatchSet)
    (inps : List LoopInput) (hp : a.Payload = .str nid) (hw : WatchSet.has w nid = false)
    (hout : (watchConsulNode a w inps).outcome = .normalReturn
      ∨ (watchConsulNode a w inps).outcome = .panicPropagated) :
    WatchSet.has (watchConsulNode a w inps).watches nid = false := by
  rcases h : nodeRun nid ⟨1, none⟩ inps with ⟨o, effs⟩
  cases o <;> simp_all [watchConsulNode, assertString, hp, hw, h, has_remove_self]

/-! Claim theorems. -/

/-- C1, counterexample: the claim that both per-entity watch loops never
enqueue a marker at or below the last sent one is false for
`watchConsulNode`, whose skip condition is equality rather than
non-advance.  With the backend returning marker 5 and then marker 3, the
node loop enqueues the markers 5 and then 3, which is not strictly
increasing. -/
theorem c1_counterexample :
    enqueuedIndices (watchConsulNode ⟨.watchConsulNode, .str "node-1", 0⟩ []
      [.poll ⟨.ok 100 5, true, false⟩, .poll ⟨.ok 101 3, true, false⟩]).effects = [5, 3]
    ∧ ¬ List.Chain' (· < ·) [5, 3] := by
  constructor
  · decide
  · simp [List.chain'_cons, List.chain'_singleton]

/-- C1, amended: the markers `watchConsulService` enqueues are strictly
increasing for every oracle sequence; `watchConsulNode` never enqueues a
marker equal to the last sent one, and when the backend's returned markers
are non-decreasing (the backend's documented behaviour) the markers it
enqueues are strictly increasing as well. -/
theorem c1_strict_markers (sid nid : String) (w1 w2 : WatchSet) (ia ib : Nat)
    (sinps ninps : List LoopInput)
    (hs : WatchSet.has w1 sid = false) (hn : WatchSet.has w2 nid = false)
    (hmono : List.Pairwise (· ≤ ·) (resps ninps)) :
    List.Chain' (· < ·)
      (enqueuedIndices (watchConsulService ⟨.watchConsulService, .str sid, ia⟩ w1 sinps).effects)
    ∧ List.Chain' (· ≠ ·)
      (enqueuedIndices (watchConsulNode ⟨.watchConsulNode, .str nid, ib⟩ w2 ninps).effects)
    ∧ List.Chain' (· < ·)
      (enqueuedIndices (watchConsulNode ⟨.watchConsulNode, .str nid, ib⟩ w2 ninps).effects) := by
  refine ⟨?_, ?_, ?_⟩
  · rw [watchConsulService_effects_eq _ sid w1 sinps rfl hs]
    exact (serviceRun_chain sid sinps ⟨1, none⟩).tail
  · rw [watchConsulNode_effects_eq _ nid w2 ninps rfl hn]
    exact (nodeRun_ne_chain nid ninps ⟨1, none⟩).tail
  · rw [watchConsulNode_effects_eq _ nid w2 ninps rfl hn]
    exact nodeRun_chain nid ninps ⟨1, none⟩ hmono

/-- C1, witness for the amended theorem at concrete inputs. -/
theorem c1_strict_markers_witness :
    WatchSet.has [] "web" = false
    ∧ WatchSet.has [] "node-1" = false
    ∧ List.Pairwise (· ≤ ·)
        (resps [.poll ⟨.ok 20 0, true, false⟩, .poll ⟨.ok 21 2, true, false⟩])
    ∧ (List.Chain' (· < ·)
        (enqueuedIndices (watchConsulService ⟨.watchConsulService, .str "web", 0⟩ []
          [.poll ⟨.ok 10 4, true, false⟩, .poll ⟨.ok 11 9, true, false⟩]).effects)
      ∧ List.Chain' (· ≠ ·)
        (enqueuedIndices (watchConsulNode ⟨.watchConsulNode, .str "node-1", 0⟩ []
          [.poll ⟨.ok 20 0, true, false⟩, .poll ⟨.ok 21 2, true, false⟩]).effects)
      ∧ List.Chain' (· < ·)
        (enqueuedIndices (watchConsulNode ⟨.watchConsulNode, .str "node-1", 0⟩ []
          [.poll ⟨.ok 20 0, true, false⟩, .poll ⟨.ok 21 2, true, false⟩]).effects)) :=
  ⟨rfl, rfl, by simp [resps],
    c1_strict_markers "web" "node-1" [] [] 0 0
      [.poll ⟨.ok 10 4, true, false⟩, .poll ⟨.ok 11 9, true, false⟩]
      [.poll ⟨.ok 20 0, true, false⟩, .poll ⟨.ok 21 2, true, false⟩]
      rfl rfl (by simp [resps])⟩

/-- C2: starting any watch — shared attach or either per-entity loop — for
a key already in the connection's watch set is a pure no-op after the
warning: the watch set is unchanged, no effect is produced (no initial
snapshot, no fetch, no enqueue), and no loop iteration runs. -/
theorem c2_duplicate_watch_noop (k sid nid : String) (ev : ActionType) (p : PayloadV)
    (w : WatchSet) (scb : Bool) (binps : List BcastInput) (sinps ninps : List LoopInput)
    (ia ib : Nat)
    (hb : WatchSet.has w k = true) (hs : WatchSet.has w sid = true)
    (hn : WatchSet.has w nid = true) :
    watchGenericBroadcast k ev p w scb binps = ⟨w, [], .noopDuplicate⟩
    ∧ watchConsulService ⟨.watchConsulService, .str sid, ia⟩ w sinps = ⟨w, [], .noopDuplicate⟩
    ∧ watchConsulNode ⟨.watchConsulNode, .str nid, ib⟩ w ninps = ⟨w, [], .noopDuplicate⟩ := by
  refine ⟨?_, ?_, ?_⟩ <;>
    simp [watchGenericBroadcast, watchConsulService, watchConsulNode, assertString, hb, hs, hn]

/-- C2, witness at concrete inputs. -/
theorem c2_duplicate_watch_noop_witness :
    WatchSet.has ["services", "web", "n1"] "services" = true
    ∧ WatchSet.has ["services", "web", "n1"] "web" = true
    ∧ WatchSet.has ["services", "web", "n1"] "n1" = true
    ∧ (watchGenericBroadcast "services" .fetchedConsulServices .regions
        ["services", "web", "n1"] false [.destroy]
        = ⟨["services", "web", "n1"], [], .noopDuplicate⟩
      ∧ watchConsulService ⟨.watchConsulService, .str "web", 0⟩ ["services", "web", "n1"]
          [.destroy] = ⟨["services", "web", "n1"], [], .noopDuplicate⟩
      ∧ watchConsulNode ⟨.watchConsulNode, .str "n1", 0⟩ ["services", "web", "n1"]
          [.destroy] = ⟨["services", "web", "n1"], [], .noopDuplicate⟩) :=
  ⟨by decide, by decide, by decide,
    c2_duplicate_watch_noop "services" "web" "n1" .fetchedConsulServices .regions
      ["services", "web", "n1"] false [.destroy] [.destroy] [.destroy] 0 0
      (by decide) (by decide) (by decide)⟩

/-- C3, counterexample: the claim that every per-entity loop applies the
5-second spacing on an error-free no-new-data iteration is false for
`watchConsulService`: two successive successful polls whose marker has not
advanced produce two back-to-back fetches with no sleep anywhere in the
trace. -/
theorem c3_counterexample :
    (serviceRun "web" ⟨1, none⟩
        [.poll ⟨.ok 7 1, true, false⟩, .poll ⟨.ok 7 1, true, false⟩]).effects
      = [.fetch "web" 1, .fetch "web" 1]
    ∧ Effect.sleep 5 ∉ (serviceRun "web" ⟨1, none⟩
        [.poll ⟨.ok 7 1, true, false⟩, .poll ⟨.ok 7 1, true, false⟩]).effects := by
  constructor
  · decide
  · decide

/-- C3, amended: on a successful query with no marker advance, the node
loop skips publishing and still sleeps the 5-second floor before the next
query, while the service loop skips publishing and proceeds directly to the
next query with no sleep at all. -/
theorem c3_no_advance_spacing (sid nid : String) (q : QueryOptions) (v v2 r : Nat) (sc : Bool)
    (hle : r ≤ q.WaitIndex) :
    nodeStep nid q (.poll ⟨.ok v q.WaitIndex, true, sc⟩)
      = .cont q [.fetch nid q.WaitIndex, .sleep 5]
    ∧ serviceStep sid q (.poll ⟨.ok v2 r, true, sc⟩) = .cont q [.fetch sid q.WaitIndex]
    ∧ Effect.sleep 5 ∉ [Effect.fetch sid q.WaitIndex] := by
  have hnlt : ¬ (q.WaitIndex < r) := by omega
  refine ⟨by simp [nodeStep], by simp [serviceStep, hnlt], by simp⟩

/-- C3, witness for the amended theorem at concrete inputs. -/
theorem c3_no_advance_spacing_witness :
    (3 : Nat) ≤ (3 : Nat)
    ∧ (nodeStep "n1" ⟨3, some 10⟩ (.poll ⟨.ok 7 3, true, false⟩)
        = .cont ⟨3, some 10⟩ [.fetch "n1" 3, .sleep 5]
      ∧ serviceStep "web" ⟨3, some 10⟩ (.poll ⟨.ok 8 3, true, false⟩)
        = .cont ⟨3, some 10⟩ [.fetch "web" 3]
      ∧ Effect.sleep 5 ∉ [Effect.fetch "web" 3]) :=
  ⟨by decide, c3_no_advance_spacing "web" "n1" ⟨3, some 10⟩ 7 8 3 false (by decide)⟩

/-- C4, counterexample: the claim that every watch loop catches a send on
the closed outbound queue is false for the per-entity loops: a service
watch whose publish hits the closed channel ends with the panic propagated
out of the goroutine, not with a normal silent exit. -/
theorem c4_counterexample :
    (watchConsulService ⟨.watchConsulService, .str "web", 0⟩ []
        [.poll ⟨.ok 7 5, true, true⟩]).outcome = .panicPropagated
    ∧ Outcome.panicPropagated ≠ Outcome.normalReturn := by
  constructor
  · decide
  · decide

/-- C4, amended: only `watchGenericBroadcast` treats a send after queue
closure as a normal silent exit (its deferred `recover()`); in
`watchConsulService` and `watchConsulNode` the same race propagates the
panic out of the loop, although their deferred removal still runs. -/
theorem c4_send_after_close (k : String) (ev : ActionType) (p : PayloadV)
    (w w2 w3 : WatchSet) (scb : Bool) (binps : List BcastInput)
    (sid nid : String) (ia ib : Nat) (sinps ninps : List LoopInput)
    (hbw : WatchSet.has w k = false)
    (hbp : (bcastRun k ev binps).out = .panicked)
    (hs : WatchSet.has w2 sid = false) (hn : WatchSet.has w3 nid = false)
    (hsp : (serviceRun sid ⟨1, none⟩ sinps).out = .panicked)
    (hnp : (nodeRun nid ⟨1, none⟩ ninps).out = .panicked) :
    (watchGenericBroadcast k ev p w scb binps).outcome ≠ .panicPropagated
    ∧ (watchGenericBroadcast k ev p w false binps).outcome = .normalReturn
    ∧ (watchConsulService ⟨.watchConsulService, .str sid, ia⟩ w2 sinps).outcome
        = .panicPropagated
    ∧ (watchConsulNode ⟨.watchConsulNode, .str nid, ib⟩ w3 ninps).outcome
        = .panicPropagated :=
  ⟨watchGenericBroadcast_no_propagation k ev p w scb binps,
   watchGenericBroadcast_recovered k ev p w binps hbw hbp,
   watchConsulService_panic_outcome _ sid w2 sinps rfl hs hsp,
   watchConsulNode_panic_outcome _ nid w3 ninps rfl hn hnp⟩

/-- C4, witness for the amended theorem at concrete inputs. -/
theorem c4_send_after_close_witness :
    WatchSet.has [] "services" = false
    ∧ (bcastRun "services" .fetchedConsulServices
        [.change ⟨.fetchedConsulServices, .serviceData 1, 3⟩ true true]).out = .panicked
    ∧ WatchSet.has [] "web" = false
    ∧ WatchSet.has [] "n1" = false
    ∧ (serviceRun "web" ⟨1, none⟩ [.poll ⟨.ok 7 5, true, true⟩]).out = .panicked
    ∧ (nodeRun "n1" ⟨1, none⟩ [.poll ⟨.ok 7 5, true, true⟩]).out = .panicked
    ∧ ((watchGenericBroadcast "services" .fetchedConsulServices .regions [] false
          [.change ⟨.fetchedConsulServices, .serviceData 1, 3⟩ true true]).outcome
        ≠ .panicPropagated
      ∧ (watchGenericBroadcast "services" .fetchedConsulServices .regions [] false
          [.change ⟨.fetchedConsulServices, .serviceData 1, 3⟩ true true]).outcome
        = .normalReturn
      ∧ (watchConsulService ⟨.watchConsulService, .str "web", 0⟩ []
          [.poll ⟨.ok 7 5, true, true⟩]).outcome = .panicPropagated
      ∧ (watchConsulNode ⟨.watchConsulNode, .str "n1", 0⟩ []
          [.poll ⟨.ok 7 5, true, true⟩]).outcome = .panicPropagated) :=
  ⟨by decide, by decide, by decide, by decide, by decide, by decide,
    c4_send_after_close "services" .fetchedConsulServices .regions [] [] [] false
      [.change ⟨.fetchedConsulServices, .serviceData 1, 3⟩ true true]
      "web" "n1" 0 0 [.poll ⟨.ok 7 5, true, true⟩] [.poll ⟨.ok 7 5, true, true⟩]
      (by decide) (by decide) (by decide) (by decide) (by decide) (by decide)⟩

/-- C5: whenever a watch loop that added its key exits — normal return of
the shared attach, return or panic unwinding of a per-entity loop — its
deferred removal leaves the watch set without the key, and removal of an
already-absent key is a no-op. -/
theorem c5_exit_removes_key (k sid nid : String) (ev : ActionType) (p : PayloadV)
    (w w2 w3 v : WatchSet) (scb : Bool) (binps : List BcastInput)
    (ia ib : Nat) (sinps ninps : List LoopInput)
    (hbw : WatchSet.has w k = false) (hs : WatchSet.has w2 sid = false)
    (hn : WatchSet.has w3 nid = false)
    (hbo : (watchGenericBroadcast k ev p w scb binps).outcome = .normalReturn)
    (hso : (watchConsulService ⟨.watchConsulService, .str sid, ia⟩ w2 sinps).outcome
        = .normalReturn
      ∨ (watchConsulService ⟨.watchConsulService, .str sid, ia⟩ w2 sinps).outcome
        = .panicPropagated)
    (hno : (watchConsulNode ⟨.watchConsulNode, .str nid, ib⟩ w3 ninps).outcome
        = .normalReturn
      ∨ (watchConsulNode ⟨.watchConsulNode, .str nid, ib⟩ w3 ninps).outcome
        = .panicPropagated)
    (hv : WatchSet.has v k = false) :
    WatchSet.has (watchGenericBroadcast k ev p w scb binps).watches k = false
    ∧ WatchSet.has (watchConsulService ⟨.watchConsulService, .str sid, ia⟩ w2 sinps).watches
        sid = false
    ∧ WatchSet.has (watchConsulNode ⟨.watchConsulNode, .str nid, ib⟩ w3 ninps).watches
        nid = false
    ∧ WatchSet.remove v k = v :=
  ⟨watchGenericBroadcast_exit_watches k ev p w scb binps hbw hbo,
   watchConsulService_exit_watches _ sid w2 sinps rfl hs hso,
   watchConsulNode_exit_watches _ nid w3 ninps rfl hn hno,
   remove_of_not_has v k hv⟩

/-- C5, witness at concrete inputs (exits by destroy signal). -/
theorem c5_exit_removes_key_witness :
    WatchSet.has [] "services" = false
    ∧ WatchSet.has [] "web" = false
    ∧ WatchSet.has [] "n1" = false
    ∧ (watchGenericBroadcast "services" .fetchedConsulServices .regions [] false
        [.destroy]).outcome = .normalReturn
    ∧ ((watchConsulService ⟨.watchConsulService, .str "web", 0⟩ [] [.destroy]).outcome
        = .normalReturn
      ∨ (watchConsulService ⟨.watchConsulService, .str "web", 0⟩ [] [.destroy]).outcome
        = .panicPropagated)
    ∧ ((watchConsulNode ⟨.watchConsulNode, .str "n1", 0⟩ [] [.destroy]).outcome
        = .normalReturn
      ∨ (watchConsulNode ⟨.watchConsulNode, .str "n1", 0⟩ [] [.destroy]).outcome
        = .panicPropagated)
    ∧ WatchSet.has ["other"] "services" = false
    ∧ (WatchSet.has (watchGenericBroadcast "services" .fetchedConsulServices .regions []
          false [.destroy]).watches "services" = false
      ∧ WatchSet.has (watchConsulService ⟨.watchConsulService, .str "web", 0⟩ []
          [.destroy]).watches "web" = false
      ∧ WatchSet.has (watchConsulNode ⟨.watchConsulNode, .str "n1", 0⟩ []
          [.destroy]).watches "n1" = false
      ∧ WatchSet.remove ["other"] "services" = ["other"]) :=
  ⟨by decide, by decide, by decide, by decide, Or.inl (by decide), Or.inl (by decide),
    by decide,
    c5_exit_removes_key "services" "web" "n1" .fetchedConsulServices .regions
      [] [] [] ["other"] false [.destroy] 0 0 [.destroy] [.destroy]
      (by decide) (by decide) (by decide) (by decide)
      (Or.inl (by decide)) (Or.inl (by decide)) (by decide)⟩

/-- C6: a shared-resource attach on a fresh key enqueues exactly one Action
— the initial snapshot payload with the expected event type and Index 0 —
before any effect of the wait loop, so the first event a watching client
receives is the cached baseline at index 0. -/
theorem c6_initial_snapshot (k : String) (ev : ActionType) (p : PayloadV) (w : WatchSet)
    (binps : List BcastInput) (hk : WatchSet.has w k = false) :
    (watchGenericBroadcast k ev p w false binps).effects
      = Effect.enqueue ⟨ev, p, 0⟩ :: (bcastRun k ev binps).effects
    ∧ enqueuedActions (watchGenericBroadcast k ev p w false binps).effects
      = ⟨ev, p, 0⟩ :: enqueuedActions (bcastRun k ev binps).effects := by
  have he : (watchGenericBroadcast k ev p w false binps).effects
      = Effect.enqueue ⟨ev, p, 0⟩ :: (bcastRun k ev binps).effects := by
    rcases h : bcastRun k ev binps with ⟨o, effs⟩
    cases o <;> simp [watchGenericBroadcast, hk, h]
  exact ⟨he, by rw [he]; simp [enqueuedActions]⟩

/-- C6, witness at concrete inputs. -/
theorem c6_initial_snapshot_witness :
    WatchSet.has [] "services" = false
    ∧ ((watchGenericBroadcast "services" .fetchedConsulServices .regions [] false
        [.destroy]).effects
      = Effect.enqueue ⟨.fetchedConsulServices, .regions, 0⟩
          :: (bcastRun "services" .fetchedConsulServices [.destroy]).effects
    ∧ enqueuedActions (watchGenericBroadcast "services" .fetchedConsulServices .regions []
        false [.destroy]).effects
      = ⟨.fetchedConsulServices, .regions, 0⟩
          :: enqueuedActions (bcastRun "services" .fetchedConsulServices [.destroy]).effects) :=
  ⟨by decide,
    c6_initial_snapshot "services" .fetchedConsulServices .regions [] [.destroy] (by decide)⟩

/-- C7: a backend query error in either per-entity loop is non-terminal:
the iteration logs, sleeps the 10-second cooldown and continues with the
same `QueryOptions` and no enqueue, and a run made solely of error
iterations is still running with its marker unchanged and an empty
publication trace. -/
theorem c7_error_is_nonterminal (sid nid : String) (q : QueryOptions) (e : String)
    (sw sc : Bool) (sinps ninps : List LoopInput)
    (hse : sinps.all isErrPoll = true) (hne : ninps.all isErrPoll = true) :
    serviceStep sid q (.poll ⟨.err e, sw, sc⟩)
      = .cont q [.fetch sid q.WaitIndex, .logError, .sleep 10]
    ∧ nodeStep nid q (.poll ⟨.err e, sw, sc⟩)
      = .cont q [.fetch nid q.WaitIndex, .logError, .sleep 10]
    ∧ (serviceRun sid q sinps).out = .running q
    ∧ enqueuedIndices (serviceRun sid q sinps).effects = []
    ∧ (nodeRun nid q ninps).out = .running q
    ∧ enqueuedIndices (nodeRun nid q ninps).effects = [] := by
  obtain ⟨h1, h2⟩ := serviceRun_allErr sid sinps q hse
  obtain ⟨h3, h4⟩ := nodeRun_allErr nid ninps q hne
  exact ⟨rfl, rfl, h1, h2, h3, h4⟩

/-- C7, witness at concrete inputs. -/
theorem c7_error_is_nonterminal_witness :
    List.all [.poll ⟨.err "timeout", true, false⟩, .poll ⟨.err "refused", true, false⟩]
      isErrPoll = true
    ∧ List.all [.poll ⟨.err "timeout", true, false⟩] isErrPoll = true
    ∧ (serviceStep "web" ⟨1, none⟩ (.poll ⟨.err "boom", true, false⟩)
        = .cont ⟨1, none⟩ [.fetch "web" 1, .logError, .sleep 10]
      ∧ nodeStep "n1" ⟨1, none⟩ (.poll ⟨.err "boom", true, false⟩)
        = .cont ⟨1, none⟩ [.fetch "n1" 1, .logError, .sleep 10]
      ∧ (serviceRun "web" ⟨1, none⟩
          [.poll ⟨.err "timeout", true, false⟩, .poll ⟨.err "refused", true, false⟩]).out
        = .running ⟨1, none⟩
      ∧ enqueuedIndices (serviceRun "web" ⟨1, none⟩
          [.poll ⟨.err "timeout", true, false⟩, .poll ⟨.err "refused", true, false⟩]).effects
        = []
      ∧ (nodeRun "n1" ⟨1, none⟩ [.poll ⟨.err "timeout", true, false⟩]).out
        = .running ⟨1, none⟩
      ∧ enqueuedIndices (nodeRun "n1" ⟨1, none⟩
          [.poll ⟨.err "timeout", true, false⟩]).effects = []) :=
  ⟨by decide, by decide,
    c7_error_is_nonterminal "web" "n1" ⟨1, none⟩ "boom" true false
      [.poll ⟨.err "timeout", true, false⟩, .poll ⟨.err "refused", true, false⟩]
      [.poll ⟨.err "timeout", true, false⟩] (by decide) (by decide)⟩

/-- C8: `writePump` attempts every queued Action on the transport in
arrival order whatever the per-write failures (a failed write is logged and
the loop continues), and on queue closure it writes the close frame and
returns through its deferred socket close, with no further writes after the
close frame. -/
theorem c8_writePump_order (items : List (HashiUI.Action × Bool)) (cf : Bool) :
    writesOf (writePump (items.map (fun p => PumpIn.item p.1 p.2) ++ [PumpIn.closed cf]))
      = items.map Prod.fst
    ∧ ∃ pre, writePump (items.map (fun p => PumpIn.item p.1 p.2) ++ [PumpIn.closed cf])
        = pre ++ (PumpEffect.closeFrame ::
            ((if cf then [PumpEffect.logCloseError] else []) ++ [PumpEffect.socketClose]))
        ∧ writesOf pre = items.map Prod.fst := by
  induction items with
  | nil =>
    refine ⟨?_, [], ?_, rfl⟩ <;> cases cf <;> simp [writePump, writesOf]
  | cons it rest ih =>
    obtain ⟨ihw, pre, ihp, ihpw⟩ := ih
    rcases it with ⟨a, wf⟩
    constructor
    · cases wf <;> simp [writePump, writesOf, ihw]
    · refine ⟨PumpEffect.write a :: ((if wf then [PumpEffect.logWriteError] else []) ++ pre),
        ?_, ?_⟩
      · cases wf <;> simp [writePump, ihp]
      · cases wf <;> simp [writesOf, ihpw]

/-- C9: for the four single-entity watch/unwatch action types, a non-string
payload makes the handling fault through the unchecked
`action.Payload.(string)` assertion — in `process` itself for the unwatch
types, and in the spawned goroutine's first statement for the watch types —
instead of being logged and ignored. -/
theorem c9_malformed_payload_panics (p : PayloadV) (ia : Nat) (w : WatchSet)
    (sinps ninps : List LoopInput) (hp : assertString p = none) :
    process ⟨.unwatchConsulService, p, ia⟩ w = .taskPanic
    ∧ process ⟨.unwatchConsulNode, p, ia⟩ w = .taskPanic
    ∧ process ⟨.watchConsulService, p, ia⟩ w = .spawnedServiceWatch ⟨.watchConsulService, p, ia⟩
    ∧ (watchConsulService ⟨.watchConsulService, p, ia⟩ w sinps).outcome = .panicPayload
    ∧ process ⟨.watchConsulNode, p, ia⟩ w = .spawnedNodeWatch ⟨.watchConsulNode, p, ia⟩
    ∧ (watchConsulNode ⟨.watchConsulNode, p, ia⟩ w ninps).outcome = .panicPayload := by
  refine ⟨?_, ?_, rfl, ?_, rfl, ?_⟩ <;>
    simp [process, watchConsulService, watchConsulNode, hp]

/-- C9, witness at a numeric payload. -/
theorem c9_malformed_payload_panics_witness :
    assertString (.num 3) = none
    ∧ (process ⟨.unwatchConsulService, .num 3, 0⟩ [] = .taskPanic
      ∧ process ⟨.unwatchConsulNode, .num 3, 0⟩ [] = .taskPanic
      ∧ process ⟨.watchConsulService, .num 3, 0⟩ []
          = .spawnedServiceWatch ⟨.watchConsulService, .num 3, 0⟩
      ∧ (watchConsulService ⟨.watchConsulService, .num 3, 0⟩ [] []).outcome = .panicPayload
      ∧ process ⟨.watchConsulNode, .num 3, 0⟩ []
          = .spawnedNodeWatch ⟨.watchConsulNode, .num 3, 0⟩
      ∧ (watchConsulNode ⟨.watchConsulNode, .num 3, 0⟩ [] []).outcome = .panicPayload) :=
  ⟨by decide, c9_malformed_payload_panics (.num 3) 0 [] [] [] (by decide)⟩

/-- C10: `watchConsulService` starts its query options at `WaitIndex` 1 and
publishes only on strict advance past it, so as long as every successful
response carries a marker at most 1 the loop keeps fetching on every
iteration — one fetch at `WaitIndex` 1 per oracle — and never enqueues a
`fetchedConsulService` action. -/
theorem c10_low_markers_never_publish (sid : String) (w : WatchSet) (ia : Nat)
    (inps : List LoopInput) (hw : WatchSet.has w sid = false)
    (hlow : inps.all lowIdxPoll = true) :
    watchConsulService ⟨.watchConsulService, .str sid, ia⟩ w inps
      = ⟨WatchSet.add w sid, inps.map fun _ => Effect.fetch sid 1, .stillRunning⟩
    ∧ enqueuedIndices (inps.map fun _ => Effect.fetch sid 1) = [] := by
  have h := serviceRun_lowIdx sid inps hlow
  have hnone : ∀ l : List LoopInput,
      enqueuedIndices (l.map fun _ => Effect.fetch sid 1) = [] := by
    intro l
    induction l with
    | nil => rfl
    | cons i rest ih => simpa [enqueuedIndices] using ih
  exact ⟨by simp [watchConsulService, assertString, hw, h], hnone inps⟩

/-- C10, witness at concrete inputs with markers 1, 0, 1. -/
theorem c10_low_markers_never_publish_witness :
    WatchSet.has [] "web" = false
    ∧ List.all [.poll ⟨.ok 7 1, true, false⟩, .poll ⟨.ok 8 0, true, false⟩,
        .poll ⟨.ok 9 1, true, false⟩] lowIdxPoll = true
    ∧ (watchConsulService ⟨.watchConsulService, .str "web", 0⟩ []
        [.poll ⟨.ok 7 1, true, false⟩, .poll ⟨.ok 8 0, true, false⟩,
         .poll ⟨.ok 9 1, true, false⟩]
      = ⟨WatchSet.add [] "web",
         ([.poll ⟨.ok 7 1, true, false⟩, .poll ⟨.ok 8 0, true, false⟩,
           .poll ⟨.ok 9 1, true, false⟩] : List LoopInput).map fun _ => Effect.fetch "web" 1,
         .stillRunning⟩
      ∧ enqueuedIndices (([.poll ⟨.ok 7 1, true, false⟩,
          .poll ⟨.ok 8 0, true, false⟩,
          .poll ⟨.ok 9 1, true, false⟩] : List LoopInput).map
            fun _ => Effect.fetch "web" 1) = []) :=
  ⟨by decide, by decide,
    c10_low_markers_never_publish "web" [] 0
      [.poll ⟨.ok 7 1, true, false⟩, .poll ⟨.ok 8 0, true, false⟩,
       .poll ⟨.ok 9 1, true, false⟩] (by decide) (by decide)⟩

end HashiUI
